import Mathlib

/-!
Verification of the request-forwarding engine of the nvidia_proxy repository
(src/noob_proxy.py), a small aiohttp reverse proxy.  The Python functions are
shallowly embedded as Lean functions: header multidicts become lists of
name/value pairs, decoded JSON request bodies become an inductive value type,
and the streamed chat-completion relay becomes a function from the upstream
chunk list to the list of events written to the caller.
-/

set_option autoImplicit false

namespace NoobProxy

/-- Values produced by decoding a JSON request body, as `json.loads` does:
a JSON object becomes a key/value list (in textual order, duplicates kept),
numbers are modelled as integers (the claims never depend on fractional
values). `Option Json` models the outcome of `json.loads`: `none` is a body
that fails to parse (the call raises). -/
inductive Json where
  | null
  | bool (b : Bool)
  | num (n : Int)
  | str (s : String)
  | arr (elems : List Json)
  | obj (fields : List (String × Json))

/-- Python truthiness of a decoded JSON value, as used by `if stream:` in
`do_chat_completion` (line 112): `None`, `False`, `0`, empty string, empty
list and empty dict are falsy, everything else truthy. -/
def truthy : Json → Bool
  | Json.null => false
  | Json.bool b => b
  | Json.num n => n != 0
  | Json.str s => !s.isEmpty
  | Json.arr elems => !elems.isEmpty
  | Json.obj fields => !fields.isEmpty

/-- Lookup in a decoded JSON object, mirroring a Python dict built by
`json.loads`: with duplicate keys the last occurrence wins, so the lookup
prefers later entries. -/
def objGet : List (String × Json) → String → Option Json
  | [], _ => none
  | kv :: rest, k =>
    match objGet rest k with
    | some v => some v
    | none => if kv.1 == k then some kv.2 else none

/-- The value bound to `stream` in `do_chat_completion` lines 107-110:
`json.loads(body).get("stream", False)` guarded by `try/except`.  A parse
failure (`none`) or a decoded value that is not an object (whose `.get`
raises `AttributeError`) falls into the `except` branch and yields `False`;
an object yields its `stream` entry, defaulting to `False`. -/
def streamFlag : Option Json → Json
  | none => Json.bool false
  | some (Json.obj fields) => (objGet fields "stream").getD (Json.bool false)
  | some _ => Json.bool false

/-- The streaming classification of a request body (the truth value of
`if stream:` at line 112), given the outcome of `json.loads` on the body. -/
def isStreaming (parsed : Option Json) : Bool :=
  truthy (streamFlag parsed)

/-- The classification as the specification words it (for comparison with
`isStreaming`, which is translated from the source): true exactly when the
body is a JSON object whose `stream` key holds boolean `true`. -/
def isStreaming_claimed (parsed : Option Json) : Bool :=
  match parsed with
  | some (Json.obj fields) =>
    match objGet fields "stream" with
    | some (Json.bool true) => true
    | _ => false
  | _ => false

/-- Python truthiness of `headers.get(name)`: `None` (header absent) and the
empty string are falsy. -/
def pyTruthyStr : Option String → Bool
  | none => false
  | some s => !s.isEmpty

/-- ASCII lowercasing of a header name, modelling Python `str.lower()` on
the ASCII names the proxy compares against. -/
def lowerStr (s : String) : String :=
  String.mk (s.data.map Char.toLower)

/-- The header-filter exclusion test from lines 96 and 105:
`k.lower() in ("host", "content-length")` (the comprehensions keep the
complement). -/
def excludedName (k : String) : Bool :=
  lowerStr k == "host" || lowerStr k == "content-length"

/-- One assignment `d[k] = v` into a Python dict represented as an ordered
key/value list: an existing entry with the exact same key is overwritten in
place, otherwise the pair is appended. -/
def dictInsert : List (String × String) → String → String → List (String × String)
  | [], k, v => [(k, v)]
  | kv :: rest, k, v =>
    if kv.1 == k then (k, v) :: rest
    else kv :: dictInsert rest k v

/-- The header filter of `list_models` (line 96) and `do_chat_completion`
(line 105): the dict comprehension over `request.headers.items()` that keeps
every pair whose lowercased name is neither `host` nor `content-length`,
with Python dict semantics (exact-key deduplication, last value wins). -/
def filter_headers (items : List (String × String)) : List (String × String) :=
  items.foldl (fun d kv => if excludedName kv.1 then d else dictInsert d kv.1 kv.2) []

/-- Value of the last occurrence of the exact-spelling key `k` in a header
item sequence. -/
def lookupLast : List (String × String) → String → Option String
  | [], _ => none
  | kv :: rest, k =>
    match lookupLast rest k with
    | some v => some v
    | none => if kv.1 == k then some kv.2 else none

/-- All names in the item sequence are pairwise distinct as exact strings
(the sequence is a mapping). -/
def distinctKeys : List (String × String) → Bool
  | [] => true
  | kv :: rest => rest.all (fun kv2 => !(kv2.1 == kv.1)) && distinctKeys rest

/-- One assignment `response.headers[key] = val` on an aiohttp `CIMultiDict`:
the first entry whose name matches case-insensitively is replaced (with the
new spelling and value, later duplicates removed by the multidict), otherwise
the pair is appended. -/
def setHeader : List (String × String) → String → String → List (String × String)
  | [], key, val => [(key, val)]
  | kv :: rest, key, val =>
    if lowerStr kv.1 == lowerStr key then
      (key, val) :: rest.filter (fun kv2 => !(lowerStr kv2.1 == lowerStr key))
    else kv :: setHeader rest key val

/-- The upstream response as seen by `do_chat_completion`: `body` is what
`resp.read()` (or `resp.text()`) yields, `chunks` the sequence delivered by
`resp.content.iter_chunks()`, `contentType` the `resp.content_type`
attribute.  Bodies and chunks are byte strings. -/
structure UpstreamResp where
  status : Nat
  contentType : String
  body : String
  chunks : List String
deriving DecidableEq

/-- One observable action on the outbound `StreamResponse`: a `write(chunk)`
call or the final `write_eof()`. -/
inductive StreamEvent where
  | write (chunk : String)
  | eof
deriving DecidableEq

/-- The chunk-relay loop of `do_chat_completion` lines 125-128:
`async for chunk, _ in resp.content.iter_chunks(): if chunk: await
response.write(chunk)` followed by `await response.write_eof()`. -/
def relayLoop : List String → List StreamEvent
  | [] => [StreamEvent.eof]
  | c :: rest =>
    if c.isEmpty then relayLoop rest
    else StreamEvent.write c :: relayLoop rest

/-- Number of `write_eof` signals in an event sequence. -/
def countEof : List StreamEvent → Nat
  | [] => 0
  | StreamEvent.eof :: rest => countEof rest + 1
  | StreamEvent.write _ :: rest => countEof rest

/-- Headers of the outbound `StreamResponse` at `prepare` time (lines
118-124): the constructor argument fixes `Content-Type` to
`text/event-stream`, then if the request carried a truthy `Origin` header the
two CORS headers are assigned before `prepare` is awaited. -/
def streamHandshakeHeaders (origin : Option String) : List (String × String) :=
  let base := [("Content-Type", "text/event-stream")]
  if pyTruthyStr origin then
    setHeader (setHeader base "Access-Control-Allow-Origin" "*") "Vary" "Origin"
  else base

/-- The response `do_chat_completion` hands back to aiohttp: either a fully
buffered `web.Response` or a prepared `StreamResponse` together with the
events written to it. -/
inductive Outbound where
  | buffered (status : Nat) (contentType : String) (body : String)
  | streamed (status : Nat) (headers : List (String × String)) (events : List StreamEvent)
deriving DecidableEq

/-- Shape of the outbound response: `true` when it is the incremental
`StreamResponse`. -/
def isStreamedShape : Outbound → Bool
  | Outbound.buffered _ _ _ => false
  | Outbound.streamed _ _ _ => true

/-- The response logic of `do_chat_completion` (lines 102-133), given the
decoded request body, the inbound `Origin` header, and the upstream response:
compute `stream` once, then for truthy `stream` either buffer an upstream
error (status 400 or above) or open the event stream and relay the chunks;
for falsy `stream` buffer the whole upstream body. -/
def do_chat_completion (parsedBody : Option Json) (origin : Option String)
    (resp : UpstreamResp) : Outbound :=
  let stream := isStreaming parsedBody
  if stream then
    if resp.status ≥ 400 then
      Outbound.buffered resp.status resp.contentType resp.body
    else
      Outbound.streamed resp.status (streamHandshakeHeaders origin) (relayLoop resp.chunks)
  else
    Outbound.buffered resp.status resp.contentType resp.body

/-- Python `methods.split(", ")`: greedy left-to-right split on the
two-character separator. -/
def splitCSAux : List Char → List Char → List String
  | [], acc => [String.mk acc.reverse]
  | ',' :: ' ' :: rest, acc => String.mk acc.reverse :: splitCSAux rest []
  | c :: rest, acc => splitCSAux rest (c :: acc)

/-- Python `s.split(", ")` on a string. -/
def pySplitCommaSpace (s : String) : List String :=
  splitCSAux s.data []

/-- Outcome of `options_handler`: the raised `HTTPMethodNotAllowed` carrying
the allowed-methods list, or a returned `web.Response`. -/
inductive OptionsResult where
  | methodNotAllowed (allowed : List String)
  | response (status : Nat) (headers : List (String × String))
deriving DecidableEq

/-- The header dict of the 204 preflight response (lines 79-88): the three
fixed entries, plus the echoed `Access-Control-Allow-Headers` when the
request carried a truthy `Access-Control-Request-Headers`. -/
def preflightHeaders (ms : String) (acrHeaders : Option String) : List (String × String) :=
  let hs := [("Access-Control-Allow-Origin", "*"),
             ("Access-Control-Allow-Methods", ms),
             ("Vary", "Origin")]
  if pyTruthyStr acrHeaders then
    hs ++ [("Access-Control-Allow-Headers", acrHeaders.getD "")]
  else hs

/-- `options_handler` (lines 65-90): append `, OPTIONS` to the route's
method string (or use `OPTIONS` alone when it is empty), then raise
`HTTPMethodNotAllowed` with `methods.split(", ")` unless both `Origin` and
`Access-Control-Request-Method` are truthy, in which case return the 204
preflight response. -/
def options_handler (origin acrMethod acrHeaders : Option String)
    (methods : String) : OptionsResult :=
  let ms := if methods.isEmpty then "OPTIONS" else methods ++ ", OPTIONS"
  if !pyTruthyStr origin || !pyTruthyStr acrMethod then
    OptionsResult.methodNotAllowed (pySplitCommaSpace ms)
  else
    OptionsResult.response 204 (preflightHeaders ms acrHeaders)

/-- What `cors_middleware` receives back from `await handler(request)`: a
response object (with its `prepared` flag), or a raised exception (aiohttp
HTTP exceptions carry a status and headers of their own) that propagates
through the middleware as a Python exception. -/
inductive HandlerOutcome where
  | ok (prepared : Bool) (status : Nat) (headers : List (String × String))
  | exc (status : Nat) (headers : List (String × String))
deriving DecidableEq

/-- The two CORS header assignments of lines 59-60 (and 122-123). -/
def cors_annotate (hdrs : List (String × String)) : List (String × String) :=
  setHeader (setHeader hdrs "Access-Control-Allow-Origin" "*") "Vary" "Origin"

/-- `cors_middleware` (lines 50-62): a raised exception bypasses the
middleware body entirely; an already-prepared response is returned untouched;
otherwise, when the request carried a truthy `Origin` header, the two CORS
headers are assigned. -/
def cors_middleware (origin : Option String) : HandlerOutcome → HandlerOutcome
  | HandlerOutcome.exc s h => HandlerOutcome.exc s h
  | HandlerOutcome.ok true s h => HandlerOutcome.ok true s h
  | HandlerOutcome.ok false s h =>
    if pyTruthyStr origin then HandlerOutcome.ok false s (cors_annotate h)
    else HandlerOutcome.ok false s h

/-- Lexicographic code-point comparison of character lists, as Python
compares strings. -/
def charsLt : List Char → List Char → Bool
  | [], [] => false
  | [], _ :: _ => true
  | _ :: _, [] => false
  | a :: as, b :: bs =>
    if a.toNat < b.toNat then true
    else if b.toNat < a.toNat then false
    else charsLt as bs

/-- Python `a < b` on strings. -/
def strLt (a b : String) : Bool :=
  charsLt a.data b.data

/-- Insert into a sorted list of strings (ascending, as Python `sorted`). -/
def insertSorted (s : String) : List String → List String
  | [] => [s]
  | t :: rest => if strLt t s then t :: insertSorted s rest else s :: t :: rest

/-- Python `sorted` on a list of strings (insertion sort, stable). -/
def sortStrings : List String → List String
  | [] => []
  | s :: rest => insertSorted s (sortStrings rest)

/-- The response the caller finally receives. -/
structure Served where
  status : Nat
  headers : List (String × String)
deriving DecidableEq

/-- End-to-end handling of an `OPTIONS` request on a registered route:
`options_handler` runs under `cors_middleware`.  A raised
`HTTPMethodNotAllowed` propagates past the middleware uninspected and aiohttp
renders it as a 405 response whose headers hold only the `Allow` list
(`",".join(sorted(allowed_methods))`); a returned response flows back through
the middleware, which annotates it. -/
def serve_options (origin acrMethod acrHeaders : Option String)
    (methods : String) : Served :=
  match options_handler origin acrMethod acrHeaders methods with
  | OptionsResult.methodNotAllowed allowed =>
    Served.mk 405 [("Allow", String.intercalate "," (sortStrings allowed))]
  | OptionsResult.response s hdrs =>
    match cors_middleware origin (HandlerOutcome.ok false s hdrs) with
    | HandlerOutcome.ok _ s2 h2 => Served.mk s2 h2
    | HandlerOutcome.exc s2 h2 => Served.mk s2 h2

/-! ### Helper lemmas -/

theorem mem_setHeader_self : ∀ (hdrs : List (String × String)) (key val : String),
    (key, val) ∈ setHeader hdrs key val
  | [], key, val => by simp [setHeader]
  | kv :: rest, key, val => by
    simp only [setHeader]
    cases h : lowerStr kv.1 == lowerStr key
    · simp only [Bool.false_eq_true, if_false]
      exact List.mem_cons_of_mem _ (mem_setHeader_self rest key val)
    · simp

theorem mem_setHeader_of_ne : ∀ (hdrs : List (String × String)) (key val : String)
    (kv : String × String), kv ∈ hdrs → lowerStr kv.1 ≠ lowerStr key →
    kv ∈ setHeader hdrs key val
  | [], _, _, _, hmem, _ => by simp at hmem
  | a :: rest, key, val, kv, hmem, hne => by
    simp only [setHeader]
    rcases List.mem_cons.mp hmem with rfl | hmem2
    · cases h : lowerStr kv.1 == lowerStr key
      · simp only [Bool.false_eq_true, if_false]
        exact List.mem_cons_self kv _
      · exact absurd (eq_of_beq h) hne
    · cases h : lowerStr a.1 == lowerStr key
      · simp only [Bool.false_eq_true, if_false]
        exact List.mem_cons_of_mem _ (mem_setHeader_of_ne rest key val kv hmem2 hne)
      · simp only [if_true]
        refine List.mem_cons_of_mem _ (List.mem_filter.mpr ⟨hmem2, ?_⟩)
        simp [hne]

theorem relayLoop_eq : ∀ chunks : List String,
    relayLoop chunks =
      (chunks.filter (fun c => !c.isEmpty)).map StreamEvent.write ++ [StreamEvent.eof]
  | [] => by simp [relayLoop]
  | c :: rest => by
    cases h : c.isEmpty <;>
      simp [relayLoop, h, List.filter_cons, relayLoop_eq rest]

theorem countEof_writes : ∀ l : List String,
    countEof (l.map StreamEvent.write ++ [StreamEvent.eof]) = 1
  | [] => rfl
  | c :: rest => by
    simpa [countEof] using countEof_writes rest

theorem acao_mem_cors_annotate (hdrs : List (String × String)) :
    ("Access-Control-Allow-Origin", "*") ∈ cors_annotate hdrs :=
  mem_setHeader_of_ne _ _ _ _ (mem_setHeader_self hdrs _ _) (by decide)

theorem vary_mem_cors_annotate (hdrs : List (String × String)) :
    ("Vary", "Origin") ∈ cors_annotate hdrs :=
  mem_setHeader_self _ _ _

theorem streamHandshakeHeaders_cases (origin : Option String) :
    streamHandshakeHeaders origin =
      if pyTruthyStr origin then
        [("Content-Type", "text/event-stream"),
         ("Access-Control-Allow-Origin", "*"), ("Vary", "Origin")]
      else [("Content-Type", "text/event-stream")] := by
  cases h : pyTruthyStr origin
  · simp [streamHandshakeHeaders, h]
  · simp only [streamHandshakeHeaders, h, if_true]
    decide

theorem dictInsert_fresh : ∀ (d : List (String × String)) (k v : String),
    (∀ kv ∈ d, kv.1 ≠ k) → dictInsert d k v = d ++ [(k, v)]
  | [], _, _, _ => rfl
  | a :: rest, k, v, h => by
    have ha : (a.1 == k) = false :=
      beq_eq_false_iff_ne.mpr (h a (List.mem_cons_self a rest))
    simp only [dictInsert, ha, Bool.false_eq_true, if_false, List.cons_append,
      List.cons.injEq, true_and]
    exact dictInsert_fresh rest k v (fun kv hm => h kv (List.mem_cons_of_mem _ hm))

theorem filter_headers_go : ∀ (items d : List (String × String)),
    distinctKeys items = true →
    (∀ kv ∈ items, ∀ kv2 ∈ d, kv2.1 ≠ kv.1) →
    items.foldl (fun d kv => if excludedName kv.1 then d else dictInsert d kv.1 kv.2) d =
      d ++ items.filter (fun kv => !excludedName kv.1)
  | [], d, _, _ => by simp
  | a :: rest, d, hdk, hfresh => by
    have hdk2 : distinctKeys rest = true := by
      simp only [distinctKeys, Bool.and_eq_true] at hdk
      exact hdk.2
    have hall : ∀ kv ∈ rest, kv.1 ≠ a.1 := by
      simp only [distinctKeys, Bool.and_eq_true, List.all_eq_true] at hdk
      intro kv hm
      have := hdk.1 kv hm
      simpa using this
    simp only [List.foldl_cons]
    cases hex : excludedName a.1
    · have hfresh2 : ∀ kv ∈ rest, ∀ kv2 ∈ d ++ [(a.1, a.2)], kv2.1 ≠ kv.1 := by
        intro kv hm kv2 hm2
        rcases List.mem_append.mp hm2 with hd2 | ha2
        · exact hfresh kv (List.mem_cons_of_mem _ hm) kv2 hd2
        · have : kv2 = (a.1, a.2) := by simpa using ha2
          rw [this]
          exact fun he => hall kv hm he.symm
      simp only [Bool.false_eq_true, if_false]
      rw [dictInsert_fresh d a.1 a.2
          (fun kv2 hm => hfresh a (List.mem_cons_self a rest) kv2 hm),
        filter_headers_go rest (d ++ [(a.1, a.2)]) hdk2 hfresh2]
      simp [List.filter_cons, hex]
    · have hfresh2 : ∀ kv ∈ rest, ∀ kv2 ∈ d, kv2.1 ≠ kv.1 :=
        fun kv hm kv2 hm2 => hfresh kv (List.mem_cons_of_mem _ hm) kv2 hm2
      simp only [if_true]
      rw [filter_headers_go rest d hdk2 hfresh2]
      simp [List.filter_cons, hex]

theorem mem_dictInsert : ∀ (d : List (String × String)) (k v : String)
    (kv : String × String), kv ∈ dictInsert d k v → kv = (k, v) ∨ kv ∈ d
  | [], k, v, kv, h => by
    simp only [dictInsert, List.mem_singleton] at h
    exact Or.inl h
  | a :: rest, k, v, kv, h => by
    simp only [dictInsert] at h
    cases he : a.1 == k
    · simp only [he, Bool.false_eq_true, if_false, List.mem_cons] at h
      rcases h with rfl | h2
      · exact Or.inr (List.mem_cons_self _ _)
      · rcases mem_dictInsert rest k v kv h2 with h3 | h3
        · exact Or.inl h3
        · exact Or.inr (List.mem_cons_of_mem _ h3)
    · simp only [he, if_true, List.mem_cons] at h
      rcases h with rfl | h2
      · exact Or.inl rfl
      · exact Or.inr (List.mem_cons_of_mem _ h2)

theorem pairwise_dictInsert : ∀ (d : List (String × String)) (k v : String),
    List.Pairwise (fun a b => a.1 ≠ b.1) d →
    List.Pairwise (fun a b => a.1 ≠ b.1) (dictInsert d k v)
  | [], k, v, _ => by simp [dictInsert]
  | a :: rest, k, v, hp => by
    rcases List.pairwise_cons.mp hp with ⟨ha, hrest⟩
    simp only [dictInsert]
    cases he : a.1 == k
    · refine List.pairwise_cons.mpr ⟨?_, pairwise_dictInsert rest k v hrest⟩
      intro b hb
      rcases mem_dictInsert rest k v b hb with rfl | hb2
      · simpa using ne_of_beq_false he
      · exact ha b hb2
    · simp only [if_true]
      refine List.pairwise_cons.mpr ⟨?_, hrest⟩
      intro b hb
      have hak : a.1 = k := eq_of_beq he
      exact hak ▸ ha b hb

theorem filter_dictInsert_self : ∀ (d : List (String × String)) (k v : String),
    List.Pairwise (fun a b => a.1 ≠ b.1) d →
    (dictInsert d k v).filter (fun kv => kv.1 == k) = [(k, v)]
  | [], k, v, _ => by simp [dictInsert]
  | a :: rest, k, v, hp => by
    rcases List.pairwise_cons.mp hp with ⟨ha, hrest⟩
    simp only [dictInsert]
    cases he : a.1 == k
    · simp only [Bool.false_eq_true, if_false, List.filter_cons, he]
      exact filter_dictInsert_self rest k v hrest
    · have hak : a.1 = k := eq_of_beq he
      simp only [if_true, List.filter_cons, beq_self_eq_true, if_true]
      have : rest.filter (fun kv => kv.1 == k) = [] := by
        refine List.filter_eq_nil_iff.mpr ?_
        intro b hb
        have : a.1 ≠ b.1 := ha b hb
        simp [hak ▸ this.symm]
      simp [this]

theorem filter_dictInsert_ne : ∀ (d : List (String × String)) (k v k2 : String),
    (k2 == k) = false →
    (dictInsert d k v).filter (fun kv => kv.1 == k2) =
      d.filter (fun kv => kv.1 == k2)
  | [], k, v, k2, hne => by
    simp only [dictInsert, List.filter_cons]
    have : (k == k2) = false := by
      refine beq_eq_false_iff_ne.mpr ?_
      exact fun he => (by simp [he] at hne)
    simp [this]
  | a :: rest, k, v, k2, hne => by
    simp only [dictInsert]
    cases he : a.1 == k
    · simp only [Bool.false_eq_true, if_false, List.filter_cons]
      rw [filter_dictInsert_ne rest k v k2 hne]
    · have hak : a.1 = k := eq_of_beq he
      have hk2 : (k == k2) = false := by
        refine beq_eq_false_iff_ne.mpr ?_
        exact fun h2 => (by simp [h2] at hne)
      have hak2 : (a.1 == k2) = false := hak ▸ hk2
      simp only [if_true, List.filter_cons, hk2, hak2, Bool.false_eq_true, if_false]

theorem filter_headers_key : ∀ (items d : List (String × String)) (k : String),
    excludedName k = false →
    List.Pairwise (fun a b => a.1 ≠ b.1) d →
    (items.foldl
        (fun d kv => if excludedName kv.1 then d else dictInsert d kv.1 kv.2)
        d).filter (fun kv => kv.1 == k) =
      (match lookupLast items k with
       | some v => [(k, v)]
       | none => d.filter (fun kv => kv.1 == k))
  | [], d, k, _, _ => by simp [lookupLast]
  | a :: rest, d, k, hk, hp => by
    simp only [List.foldl_cons, lookupLast]
    cases hex : excludedName a.1
    · simp only [Bool.false_eq_true, if_false]
      rw [filter_headers_key rest (dictInsert d a.1 a.2) k hk
          (pairwise_dictInsert d a.1 a.2 hp)]
      cases hl : lookupLast rest k
      · cases hak : a.1 == k
        · have : (k == a.1) = false := by
            refine beq_eq_false_iff_ne.mpr ?_
            exact fun h2 => (by simp [h2] at hak)
          simp [hak, filter_dictInsert_ne d a.1 a.2 k this]
        · have : a.1 = k := eq_of_beq hak
          subst this
          simp [hak, filter_dictInsert_self d a.1 a.2 hp]
      · simp
    · simp only [if_true]
      rw [filter_headers_key rest d k hk hp]
      cases hl : lookupLast rest k
      · cases hak : a.1 == k
        · simp [hak]
        · have hak2 : a.1 = k := eq_of_beq hak
          exfalso
          rw [← hak2] at hk
          simp [hex] at hk
      · simp

/-! ### Claim theorems -/

/-- Claim C1, counterexample: the claim states that the streaming
classification is true only when the `stream` value is boolean `true`, and
false for any non-boolean `stream` value.  The code instead tests Python
truthiness, so a body decoding to an object with `stream` equal to the JSON
number 1 (a non-boolean) is classified as streaming, contradicting the
claim. -/
theorem streaming_classifier_counterexample :
    isStreaming (some (Json.obj [("stream", Json.num 1)])) = true ∧
    isStreaming_claimed (some (Json.obj [("stream", Json.num 1)])) = false := by
  decide

/-- Claim C1 as amended: the streaming classification is true exactly when
the body decodes to a JSON object whose `stream` entry (defaulting to false
when absent) is truthy under Python truthiness; any parse failure, non-object
body, or missing key classifies as false, and the classification is a total
function (it never raises). -/
theorem streaming_classifier_truthy (parsed : Option Json) :
    isStreaming parsed = true ↔
      ∃ fields v, parsed = some (Json.obj fields) ∧
        objGet fields "stream" = some v ∧ truthy v = true := by
  constructor
  · intro h
    rcases parsed with _ | j
    · simp [isStreaming, streamFlag, truthy] at h
    · cases j
      case obj fields =>
        cases hg : objGet fields "stream" with
        | none =>
          exact absurd h (by simp [isStreaming, streamFlag, hg, truthy])
        | some v =>
          refine ⟨fields, v, rfl, hg, ?_⟩
          simpa only [isStreaming, streamFlag, hg, Option.getD_some] using h
      all_goals simp [isStreaming, streamFlag, truthy] at h
  · rintro ⟨fields, v, rfl, hg, hv⟩
    simp [isStreaming, streamFlag, hg, hv]

/-- Claim C2: for a request classified as streaming whose upstream status is
below 400, the relay opens the stream with the upstream status and
content-type fixed to `text/event-stream`, writes exactly the non-empty
upstream chunks in arrival order (none dropped, reordered or duplicated),
and signals end-of-body exactly once, after the last chunk. -/
theorem chat_streaming_relay (p : Option Json) (origin : Option String)
    (resp : UpstreamResp) (hs : isStreaming p = true) (hlt : resp.status < 400) :
    do_chat_completion p origin resp =
      Outbound.streamed resp.status (streamHandshakeHeaders origin)
        ((resp.chunks.filter (fun c => !c.isEmpty)).map StreamEvent.write ++
          [StreamEvent.eof]) ∧
    ("Content-Type", "text/event-stream") ∈ streamHandshakeHeaders origin ∧
    countEof ((resp.chunks.filter (fun c => !c.isEmpty)).map StreamEvent.write ++
      [StreamEvent.eof]) = 1 := by
  refine ⟨?_, ?_, countEof_writes _⟩
  · have h4 : ¬ resp.status ≥ 400 := by omega
    simp [do_chat_completion, hs, h4, relayLoop_eq]
  · rw [streamHandshakeHeaders_cases]
    cases h : pyTruthyStr origin <;> simp

/-- Claim C2, witness: concrete run on the spec's example chunk sequence. -/
theorem chat_streaming_relay_witness :
    do_chat_completion (some (Json.obj [("stream", Json.bool true)])) none
        (UpstreamResp.mk 200 "text/event-stream" "" ["data: a\n\n", "data: b\n\n"]) =
      Outbound.streamed 200 (streamHandshakeHeaders none)
        (((["data: a\n\n", "data: b\n\n"] : List String).filter
            (fun c => !c.isEmpty)).map StreamEvent.write ++ [StreamEvent.eof]) ∧
    ("Content-Type", "text/event-stream") ∈ streamHandshakeHeaders none ∧
    countEof (((["data: a\n\n", "data: b\n\n"] : List String).filter
        (fun c => !c.isEmpty)).map StreamEvent.write ++ [StreamEvent.eof]) = 1 :=
  chat_streaming_relay _ _ _ (by decide) (by decide)

/-- Claim C3: for a request classified as streaming whose upstream status is
400 or above, the caller gets a single fully-buffered response carrying the
upstream status, content-type and complete body, not an event stream. -/
theorem chat_streaming_error_buffered (p : Option Json) (origin : Option String)
    (resp : UpstreamResp) (hs : isStreaming p = true) (h4 : 400 ≤ resp.status) :
    do_chat_completion p origin resp =
      Outbound.buffered resp.status resp.contentType resp.body := by
  simp [do_chat_completion, hs, h4]

/-- Claim C3, witness: the spec's 429 example. -/
theorem chat_streaming_error_buffered_witness :
    do_chat_completion (some (Json.obj [("stream", Json.bool true)])) none
        (UpstreamResp.mk 429 "application/json" "error: rate limited"
          ["error: rate limited"]) =
      Outbound.buffered 429 "application/json" "error: rate limited" :=
  chat_streaming_error_buffered _ _ _ (by decide) (by decide)

/-- Claim C4: a request classified as non-streaming yields a buffered
response with the upstream status, content-type and byte-identical body. -/
theorem chat_nonstreaming_passthrough (p : Option Json) (origin : Option String)
    (resp : UpstreamResp) (hs : isStreaming p = false) :
    do_chat_completion p origin resp =
      Outbound.buffered resp.status resp.contentType resp.body := by
  simp [do_chat_completion, hs]

/-- Claim C4, witness: the spec's round-trip example (body without a
`stream` key, upstream 200 with a JSON content type). -/
theorem chat_nonstreaming_passthrough_witness :
    do_chat_completion (some (Json.obj [("model", Json.str "m")])) none
        (UpstreamResp.mk 200 "application/json" "id: x" ["id: x"]) =
      Outbound.buffered 200 "application/json" "id: x" :=
  chat_nonstreaming_passthrough _ _ _ (by decide)

/-- Claim C9: the boolean streaming decision is computed once from the body
before the upstream call, and the buffered-versus-streamed shape of the
response depends only on that single decision and the upstream status: two
bodies with the same decision produce identical handling for every upstream
response, and the shape is streamed exactly when the decision holds and the
status is below 400. -/
theorem forward_decision_once (p q : Option Json) (origin : Option String)
    (resp : UpstreamResp) (h : isStreaming p = isStreaming q) :
    do_chat_completion p origin resp = do_chat_completion q origin resp ∧
    isStreamedShape (do_chat_completion p origin resp) =
      (isStreaming p && decide (resp.status < 400)) := by
  constructor
  · simp only [do_chat_completion, h]
  · cases hb : isStreaming p
    · simp [do_chat_completion, hb, isStreamedShape]
    · by_cases h4 : resp.status ≥ 400
      · have hn : ¬ resp.status < 400 := by omega
        simp [do_chat_completion, hb, h4, isStreamedShape, hn]
      · have hl : resp.status < 400 := by omega
        simp [do_chat_completion, hb, h4, isStreamedShape, hl]

/-- Claim C9, witness: two different bodies with the same decision. -/
theorem forward_decision_once_witness :
    do_chat_completion (some (Json.obj [("stream", Json.bool true)])) none
        (UpstreamResp.mk 200 "application/json" "ok" ["ok"]) =
      do_chat_completion (some (Json.obj [("stream", Json.num 5)])) none
        (UpstreamResp.mk 200 "application/json" "ok" ["ok"]) ∧
    isStreamedShape (do_chat_completion (some (Json.obj [("stream", Json.bool true)]))
        none (UpstreamResp.mk 200 "application/json" "ok" ["ok"])) =
      (isStreaming (some (Json.obj [("stream", Json.bool true)])) &&
        decide ((200 : Nat) < 400)) :=
  forward_decision_once _ _ _ _ (by decide)

/-- Claim C5: on an inbound header mapping (pairwise-distinct names), the
outbound headers are exactly the inbound pairs whose lowercased name is
neither `host` nor `content-length`, unchanged and in order. -/
theorem header_filter_mapping (items : List (String × String))
    (hd : distinctKeys items = true) :
    filter_headers items = items.filter (fun kv => !excludedName kv.1) ∧
    ∀ kv, kv ∈ filter_headers items ↔ kv ∈ items ∧ excludedName kv.1 = false := by
  have he : filter_headers items = items.filter (fun kv => !excludedName kv.1) := by
    have h0 := filter_headers_go items [] hd (by simp)
    simpa [filter_headers] using h0
  refine ⟨he, ?_⟩
  intro kv
  rw [he, List.mem_filter]
  simp

/-- Claim C5, witness: a concrete header mapping. -/
theorem header_filter_mapping_witness :
    distinctKeys [("Host", "upstream"), ("Authorization", "Bearer t"),
      ("Content-Length", "42"), ("Accept", "text/plain")] = true ∧
    (filter_headers [("Host", "upstream"), ("Authorization", "Bearer t"),
        ("Content-Length", "42"), ("Accept", "text/plain")] =
      ([("Host", "upstream"), ("Authorization", "Bearer t"),
        ("Content-Length", "42"), ("Accept", "text/plain")].filter
          (fun kv => !excludedName kv.1)) ∧
      ∀ kv, kv ∈ filter_headers [("Host", "upstream"), ("Authorization", "Bearer t"),
          ("Content-Length", "42"), ("Accept", "text/plain")] ↔
        kv ∈ [("Host", "upstream"), ("Authorization", "Bearer t"),
          ("Content-Length", "42"), ("Accept", "text/plain")] ∧
        excludedName kv.1 = false) :=
  ⟨by decide, header_filter_mapping _ (by decide)⟩

theorem options_handler_raises (origin acrMethod acrHeaders : Option String)
    (methods : String)
    (hc : (!pyTruthyStr origin || !pyTruthyStr acrMethod) = true) :
    options_handler origin acrMethod acrHeaders methods =
      OptionsResult.methodNotAllowed
        (pySplitCommaSpace
          (if methods.isEmpty then "OPTIONS" else methods ++ ", OPTIONS")) := by
  simp [options_handler, hc]

/-- Claim C6: an OPTIONS request carrying truthy `Origin` and
`Access-Control-Request-Method` headers gets a 204 response whose headers
hold `Access-Control-Allow-Origin: *`, `Access-Control-Allow-Methods` equal
to the route's methods followed by `OPTIONS`, `Vary: Origin`, and, when the
request carries `Access-Control-Request-Headers`, that value echoed as
`Access-Control-Allow-Headers`. -/
theorem preflight_response (origin acrMethod acrHeaders : Option String)
    (methods : String) (ho : pyTruthyStr origin = true)
    (hm : pyTruthyStr acrMethod = true) (hne : methods.isEmpty = false) :
    options_handler origin acrMethod acrHeaders methods =
      OptionsResult.response 204
        (preflightHeaders (methods ++ ", OPTIONS") acrHeaders) ∧
    ("Access-Control-Allow-Origin", "*") ∈
      preflightHeaders (methods ++ ", OPTIONS") acrHeaders ∧
    ("Access-Control-Allow-Methods", methods ++ ", OPTIONS") ∈
      preflightHeaders (methods ++ ", OPTIONS") acrHeaders ∧
    ("Vary", "Origin") ∈ preflightHeaders (methods ++ ", OPTIONS") acrHeaders ∧
    (∀ h, acrHeaders = some h → h.isEmpty = false →
      ("Access-Control-Allow-Headers", h) ∈
        preflightHeaders (methods ++ ", OPTIONS") acrHeaders) := by
  refine ⟨?_, ?_, ?_, ?_, ?_⟩
  · simp [options_handler, ho, hm, hne]
  · cases h : pyTruthyStr acrHeaders <;> simp [preflightHeaders, h]
  · cases h : pyTruthyStr acrHeaders <;> simp [preflightHeaders, h]
  · cases h : pyTruthyStr acrHeaders <;> simp [preflightHeaders, h]
  · intro h2 ha hh
    subst ha
    have ht : pyTruthyStr (some h2) = true := by simp [pyTruthyStr, hh]
    simp [preflightHeaders, ht]

/-- Claim C6, witness: the spec's preflight example. -/
theorem preflight_response_witness :
    options_handler (some "https://example.com") (some "POST")
        (some "authorization") "POST" =
      OptionsResult.response 204
        (preflightHeaders ("POST" ++ ", OPTIONS") (some "authorization")) ∧
    ("Access-Control-Allow-Origin", "*") ∈
      preflightHeaders ("POST" ++ ", OPTIONS") (some "authorization") ∧
    ("Access-Control-Allow-Methods", "POST" ++ ", OPTIONS") ∈
      preflightHeaders ("POST" ++ ", OPTIONS") (some "authorization") ∧
    ("Vary", "Origin") ∈
      preflightHeaders ("POST" ++ ", OPTIONS") (some "authorization") ∧
    (∀ h, (some "authorization" : Option String) = some h → h.isEmpty = false →
      ("Access-Control-Allow-Headers", h) ∈
        preflightHeaders ("POST" ++ ", OPTIONS") (some "authorization")) :=
  preflight_response _ _ _ _ (by decide) (by decide) (by decide)

/-- Claim C7: an OPTIONS request in which `Origin` or
`Access-Control-Request-Method` is missing gets the raised
method-not-allowed outcome carrying the route's allowed methods together
with `OPTIONS`, not a 204. -/
theorem preflight_missing_not_allowed (origin acrMethod acrHeaders : Option String)
    (methods : String) (hm : methods = "GET" ∨ methods = "POST")
    (h : pyTruthyStr origin = false ∨ pyTruthyStr acrMethod = false) :
    options_handler origin acrMethod acrHeaders methods =
      OptionsResult.methodNotAllowed [methods, "OPTIONS"] ∧
    "OPTIONS" ∈ [methods, "OPTIONS"] := by
  have hc : (!pyTruthyStr origin || !pyTruthyStr acrMethod) = true := by
    rcases h with h | h <;> simp [h]
  rw [options_handler_raises origin acrMethod acrHeaders methods hc]
  rcases hm with rfl | rfl <;> exact ⟨by decide, by decide⟩

/-- Claim C7, witness: OPTIONS on the chat route with the `Origin` header
absent. -/
theorem preflight_missing_not_allowed_witness :
    options_handler none (some "POST") none "POST" =
      OptionsResult.methodNotAllowed ["POST", "OPTIONS"] ∧
    "OPTIONS" ∈ ["POST", "OPTIONS"] :=
  preflight_missing_not_allowed _ _ _ _ (Or.inr rfl) (Or.inl (by decide))

/-- Claim C8, counterexample: the claim asks for the two CORS headers on
every completed response to a request carrying `Origin`.  But an OPTIONS
request that carries `Origin` and lacks `Access-Control-Request-Method`
makes `options_handler` raise `HTTPMethodNotAllowed`; the exception
propagates past `cors_middleware` (which only touches returned responses),
so the caller's completed 405 response carries only the `Allow` header and
neither `Access-Control-Allow-Origin` nor `Vary`. -/
theorem cors_missing_on_exception_counterexample :
    pyTruthyStr (some "https://example.com") = true ∧
    (serve_options (some "https://example.com") none none "POST").status = 405 ∧
    (serve_options (some "https://example.com") none none "POST").headers =
      [("Allow", "OPTIONS,POST")] ∧
    ((serve_options (some "https://example.com") none none "POST").headers.all
      (fun kv => !(kv.1 == "Access-Control-Allow-Origin") && !(kv.1 == "Vary"))) =
      true := by
  decide

/-- Claim C8 as amended: for every response a handler returns normally
(responses raised as HTTP exceptions bypass the middleware and are not
annotated), if the request carried a truthy `Origin` header the middleware
adds `Access-Control-Allow-Origin: *` and `Vary: Origin`; on the streaming
path the same two headers are already part of the handshake header set,
fixed before the first chunk is written, and the middleware leaves prepared
responses untouched. -/
theorem cors_headers_on_normal_responses (origin : Option String)
    (ho : pyTruthyStr origin = true) :
    (∀ s hdrs, cors_middleware origin (HandlerOutcome.ok false s hdrs) =
        HandlerOutcome.ok false s (cors_annotate hdrs) ∧
      ("Access-Control-Allow-Origin", "*") ∈ cors_annotate hdrs ∧
      ("Vary", "Origin") ∈ cors_annotate hdrs) ∧
    (∀ (p : Option Json) (resp : UpstreamResp), isStreaming p = true →
      resp.status < 400 →
      do_chat_completion p origin resp =
        Outbound.streamed resp.status (streamHandshakeHeaders origin)
          (relayLoop resp.chunks) ∧
      ("Access-Control-Allow-Origin", "*") ∈ streamHandshakeHeaders origin ∧
      ("Vary", "Origin") ∈ streamHandshakeHeaders origin) ∧
    (∀ s hdrs, cors_middleware origin (HandlerOutcome.ok true s hdrs) =
      HandlerOutcome.ok true s hdrs) := by
  refine ⟨?_, ?_, ?_⟩
  · intro s hdrs
    exact ⟨by simp [cors_middleware, ho], acao_mem_cors_annotate hdrs,
      vary_mem_cors_annotate hdrs⟩
  · intro p resp hs hlt
    have h4 : ¬ resp.status ≥ 400 := by omega
    refine ⟨by simp [do_chat_completion, hs, h4], ?_, ?_⟩
    · rw [streamHandshakeHeaders_cases]
      simp [ho]
    · rw [streamHandshakeHeaders_cases]
      simp [ho]
  · intro s hdrs
    simp [cors_middleware]

/-- Claim C8 (amended), witness: a concrete unprepared response. -/
theorem cors_headers_on_normal_responses_witness :
    cors_middleware (some "https://example.com") (HandlerOutcome.ok false 200 []) =
      HandlerOutcome.ok false 200 (cors_annotate []) ∧
    ("Access-Control-Allow-Origin", "*") ∈
      cors_annotate ([] : List (String × String)) ∧
    ("Vary", "Origin") ∈ cors_annotate ([] : List (String × String)) :=
  (cors_headers_on_normal_responses (some "https://example.com") (by decide)).1 200 []

/-- Claim C10: entries with the same exact-spelling name collapse to a
single outbound entry holding the last occurrence's value (Python dict
semantics of the comprehension), while names differing only in letter case
remain distinct keys and are both kept. -/
theorem header_filter_duplicates (items : List (String × String)) (k : String)
    (hk : excludedName k = false) :
    ((filter_headers items).filter (fun kv => kv.1 == k) =
      match lookupLast items k with
      | some v => [(k, v)]
      | none => []) ∧
    (∀ k2 v v2, excludedName k2 = false → (k == k2) = false →
      lookupLast items k = some v → lookupLast items k2 = some v2 →
      (k, v) ∈ filter_headers items ∧ (k2, v2) ∈ filter_headers items ∧
      (k, v) ≠ (k2, v2)) := by
  have hchar : ∀ k3, excludedName k3 = false →
      (filter_headers items).filter (fun kv => kv.1 == k3) =
        match lookupLast items k3 with
        | some v => [(k3, v)]
        | none => [] := by
    intro k3 hk3
    have h0 := filter_headers_key items [] k3 hk3 List.Pairwise.nil
    cases hl : lookupLast items k3
    · rw [hl] at h0
      simpa [filter_headers] using h0
    · rw [hl] at h0
      simpa [filter_headers] using h0
  refine ⟨hchar k hk, ?_⟩
  intro k2 v v2 hk2 hne hlv hlv2
  have hkne : k ≠ k2 := ne_of_beq_false hne
  have h1 := hchar k hk
  have h2 := hchar k2 hk2
  rw [hlv] at h1
  rw [hlv2] at h2
  simp only [] at h1 h2
  refine ⟨List.mem_of_mem_filter (p := fun kv => kv.1 == k) ?_,
    List.mem_of_mem_filter (p := fun kv => kv.1 == k2) ?_, ?_⟩
  · rw [h1]
    exact List.mem_singleton_self _
  · rw [h2]
    exact List.mem_singleton_self _
  · exact fun hp => hkne (congrArg Prod.fst hp)

/-- Claim C10, witness: two exact duplicates plus a case-variant spelling. -/
theorem header_filter_duplicates_witness :
    ((filter_headers [("X-Api-Key", "a"), ("X-Api-Key", "b"), ("x-api-key", "c")]).filter
        (fun kv => kv.1 == "X-Api-Key") =
      match lookupLast [("X-Api-Key", "a"), ("X-Api-Key", "b"), ("x-api-key", "c")]
          "X-Api-Key" with
      | some v => [("X-Api-Key", v)]
      | none => []) ∧
    (∀ k2 v v2, excludedName k2 = false → ("X-Api-Key" == k2) = false →
      lookupLast [("X-Api-Key", "a"), ("X-Api-Key", "b"), ("x-api-key", "c")]
          "X-Api-Key" = some v →
      lookupLast [("X-Api-Key", "a"), ("X-Api-Key", "b"), ("x-api-key", "c")]
          k2 = some v2 →
      ("X-Api-Key", v) ∈
        filter_headers [("X-Api-Key", "a"), ("X-Api-Key", "b"), ("x-api-key", "c")] ∧
      (k2, v2) ∈
        filter_headers [("X-Api-Key", "a"), ("X-Api-Key", "b"), ("x-api-key", "c")] ∧
      ("X-Api-Key", v) ≠ (k2, v2)) :=
  header_filter_duplicates _ _ (by decide)

end NoobProxy
